import Mathlib

set_option maxRecDepth 10000

/-!
Shallow embedding of the harvest-extract-aggregate pipeline of
`KB/apis/connectors/pubmed_connector.py` (class `EnhancedPubMedConnector`),
together with theorems settling the behavioural properties of its
query builder, paginated harvester, record extractor and corpus analyzer.

Python dictionaries are modelled as insertion-ordered association lists,
Python strings as Lean `String`, Python float division as division in `ℚ`.
A missing XML sub-element is modelled as `Option.none` (when the code calls
`.text` on the result of `find`, which raises on a missing element) or as
`""` (when the code routes the access through `_safe_find_text`).
-/

namespace PubMed

/-- Python `s[:n]` on a string (character based). -/
def strTake (s : String) (n : Nat) : String := ⟨s.data.take n⟩

/-- Python `needle in hay` substring test: the needle occurs as a prefix of
some suffix of the haystack. -/
def containsSub (needle hay : String) : Bool :=
  (List.range (hay.length + 1)).any (fun i => needle.data.isPrefixOf (hay.data.drop i))

/-- Number of (possibly overlapping) occurrences of `needle` in `hay`:
the number of positions at which `needle` is a prefix of the corresponding
suffix.  This is the spec-side notion of "occurrences within" a text; the
source never computes it. -/
def specOccCount (needle hay : String) : Nat :=
  (List.range (hay.length + 1)).countP (fun i => needle.data.isPrefixOf (hay.data.drop i))

/-- Python `str.zfill(w)`: left-pad with `'0'` up to width `w`, keeping a
leading sign in front of the padding. -/
def zfill (s : String) (w : Nat) : String :=
  if w ≤ s.length then s
  else
    match s.data with
    | [] => ⟨List.replicate w '0'⟩
    | c :: rest =>
      if c = '+' ∨ c = '-' then ⟨c :: (List.replicate (w - s.length) '0' ++ rest)⟩
      else ⟨List.replicate (w - s.length) '0' ++ s.data⟩

/-- Python `str.isalpha()`: non-empty and every character alphabetic. -/
def isalphaStr (s : String) : Bool := !s.data.isEmpty && s.data.all Char.isAlpha

/-- Python `str.lower()`, character by character (kept kernel-reducible,
unlike `String.toLower`). -/
def strLower (s : String) : String := ⟨s.data.map Char.toLower⟩

/-- Lookup in a Python-dict-as-association-list: the value at the first
matching key, if any (`k in d` / `d[k]`). -/
def alookup {α : Type} (m : List (String × α)) (k : String) : Option α :=
  (m.find? (fun p => p.1 = k)).map (fun p => p.2)

/-- Python `d.get(k, dflt)`. -/
def alookupD {α : Type} (m : List (String × α)) (k : String) (d : α) : α :=
  (alookup m k).getD d

/-! ## QueryBuilder: `build_search_query` -/

/-- One entry of `search_parameters.search_terms` in the configuration. -/
structure SearchTermCat where
  category : String
  terms : List String
deriving DecidableEq, Repr

/-- The fixed publication-type filters appended by `build_search_query`. -/
def pubTypeFilters : List String :=
  ["\"Clinical Trial\"[Publication Type]",
   "\"Meta-Analysis\"[Publication Type]",
   "\"Systematic Review\"[Publication Type]",
   "\"Randomized Controlled Trial\"[Publication Type]"]

/-- `EnhancedPubMedConnector.build_search_query`.  `categories = none` (and,
as in Python `if not categories`, `some []`) selects every configured
category, in configured order. -/
def buildSearchQuery (searchTerms : List SearchTermCat) (categories : Option (List String)) : String :=
  let cats : List String :=
    match categories with
    | none => searchTerms.map (fun t => t.category)
    | some [] => searchTerms.map (fun t => t.category)
    | some cs => cs
  let queryParts : List String :=
    cats.filterMap (fun category =>
      let terms := ((searchTerms.find? (fun item => item.category = category)).map
        (fun item => item.terms)).getD []
      if terms.isEmpty then none
      else some ("(" ++ String.intercalate " OR "
        (terms.map (fun term => "\"" ++ term ++ "\"[Title/Abstract]")) ++ ")"))
  String.intercalate " AND "
    (queryParts ++ ["(" ++ String.intercalate " OR " pubTypeFilters ++ ")"])

/-! ## RecordExtractor: publication date -/

/-- The `<PubDate>` sub-element: each field is `""` when absent
(`_safe_find_text`). -/
structure PubDateElem where
  year : String
  month : String
  day : String
deriving DecidableEq, Repr

/-- The fixed 12-entry month table of `_extract_publication_date`. -/
def monthTable : List (String × String) :=
  [("Jan", "01"), ("Feb", "02"), ("Mar", "03"), ("Apr", "04"),
   ("May", "05"), ("Jun", "06"), ("Jul", "07"), ("Aug", "08"),
   ("Sep", "09"), ("Oct", "10"), ("Nov", "11"), ("Dec", "12")]

/-- The month-normalisation step of `_extract_publication_date`: an
alphabetic month is replaced by the table entry for its first three
letters, defaulting to `"01"`. -/
def mapMonth (m : String) : String :=
  if isalphaStr m then alookupD monthTable (strTake m 3) "01" else m

/-- `EnhancedPubMedConnector._extract_publication_date`; `none` models a
record with no `<PubDate>` element. -/
def extractPublicationDate (pd : Option PubDateElem) : String :=
  match pd with
  | none => ""
  | some p =>
    let month := mapMonth p.month
    if p.year ≠ "" ∧ month ≠ "" ∧ p.day ≠ "" then
      p.year ++ "-" ++ zfill month 2 ++ "-" ++ zfill p.day 2
    else p.year

/-! ## RecordExtractor: study type -/

/-- The fixed ordered long-name → short-code table of
`_determine_study_type` (Python dicts preserve insertion order). -/
def studyTypes : List (String × String) :=
  [("Randomized Controlled Trial", "RCT"),
   ("Clinical Trial", "Clinical Trial"),
   ("Meta-Analysis", "Meta-Analysis"),
   ("Systematic Review", "Systematic Review"),
   ("Observational Study", "Observational"),
   ("Case Reports", "Case Report")]

/-- Whether one table entry matches: its long name occurs as a
(case-sensitive) substring of some publication-type or MeSH-term string. -/
def stMatches (pubTypes meshTerms : List String) (st : String × String) : Bool :=
  pubTypes.any (fun pt => containsSub st.1 pt) || meshTerms.any (fun mt => containsSub st.1 mt)

/-- `EnhancedPubMedConnector._determine_study_type` (the publication types
and MeSH terms are extracted verbatim from the record by
`_extract_publication_types` / `_extract_mesh_terms`). -/
def determineStudyType (pubTypes meshTerms : List String) : String :=
  match studyTypes.find? (stMatches pubTypes meshTerms) with
  | some st => st.2
  | none => "Other"

/-! ## RecordExtractor: technology mentions -/

/-- One entry of the configured `technologies` vocabulary. -/
structure Tech where
  name : String
  terms : List String
deriving DecidableEq, Repr

/-- The text scanned by `_analyze_technology_mentions`:
`' '.join([title, abstract]).lower()`. -/
def textOf (title abstract : String) : String := strLower (title ++ " " ++ abstract)

/-- `EnhancedPubMedConnector._analyze_technology_mentions`: for each
configured technology, `sum(1 for term in terms if term.lower() in text)`,
kept only when positive. -/
def analyzeTechnologyMentions (techs : List Tech) (title abstract : String) :
    List (String × Nat) :=
  let text := textOf title abstract
  techs.filterMap (fun tt =>
    let count := tt.terms.countP (fun term => containsSub (strLower term) text)
    if 0 < count then some (tt.name, count) else none)

/-- Spec-side notion for the technology-mention value: the total number of
occurrences of any term variant in the text (sum over variants of their
occurrence counts). -/
def specTotalOcc (tt : Tech) (text : String) : Nat :=
  (tt.terms.map (fun term => specOccCount (strLower term) text)).sum

/-! ## RecordExtractor: whole records (`_process_article_data`)

`_extract_authors` is dedented to module level at line 229 of
`pubmed_connector.py`, which ends the class body there: everything from
`_extract_mesh_terms` onward becomes a dead function nested inside it, not
a method of `EnhancedPubMedConnector`.  At run time
`self._extract_authors(article)` therefore raises `AttributeError` while
the `article_data` dictionary is being built — after `pmid` has been
assigned — for every record.  The per-record loop below embeds that actual
behaviour; the extractor function bodies themselves (publication date,
study type, technology mentions, and the author/country/institution
helpers in this section) are embedded separately, as the algorithms the
function-level properties are about. -/

/-- One `<Author>` sub-element; each field is the `_safe_find_text` result
with `or ''` applied, so `""` models a missing part. -/
structure AuthorElem where
  lastname : String
  firstname : String
  initials : String
  affiliation : String
deriving DecidableEq, Repr

/-- One `<PubmedArticle>` element, abstracted to the sub-element values the
extractors read.  `pmid = none` models a record without a `<PMID>` element
(where `article.find('.//PMID').text` raises `AttributeError`). -/
structure Record where
  pmid : Option String
  title : String
  abstract : String
  journal : String
  pubdate : Option PubDateElem
  authors : List AuthorElem
  doi : String
  meshTerms : List String
  keywords : List String
  pubTypes : List String
  affiliations : List String
deriving DecidableEq, Repr

/-- `_extract_authors`: keep author entries with at least one non-empty
field (`if any(author_data.values())`). -/
def extractAuthors (authors : List AuthorElem) : List AuthorElem :=
  authors.filter (fun a =>
    a.lastname != "" || a.firstname != "" || a.initials != "" || a.affiliation != "")

/-- `_extract_country`: configured country names occurring as substrings of
some affiliation text.  The source accumulates a Python `set` (unordered);
it is modelled in configuration order. -/
def extractCountry (countriesCfg : List String) (affiliations : List String) : List String :=
  countriesCfg.filter (fun c => affiliations.any (fun a => containsSub c a))

/-- Insertion into an insertion-ordered model of a Python `set`. -/
def insertNew (l : List String) (x : String) : List String :=
  if x ∈ l then l else l ++ [x]

/-- Python `re.split('[,;]', s)`. -/
def splitAff (s : String) : List String := s.split (fun c => c = ',' || c = ';')

/-- `_extract_institutions`: split each affiliation on comma/semicolon and
keep the stripped fragments containing "university" or "hospital"
case-insensitively (a Python `set`, modelled in first-seen order). -/
def extractInstitutions (affiliations : List String) : List String :=
  affiliations.foldl (fun acc a =>
    (splitAff a).foldl (fun acc part =>
      if containsSub "university" (strLower part) || containsSub "hospital" (strLower part) then
        insertNew acc part.trim
      else acc) acc) []

/-- The normalized article shape that the `article_data` construction in
`_process_article_data` aims at and that the corpus analyzer consumes.
The regex-heuristic fields (`population_size`, `outcome_measures`,
`limitations`, `key_findings`) and `chemicals`/`grants` are not modelled
here. -/
structure Article where
  pmid : String
  title : String
  abstract : String
  journal : String
  publication_date : String
  authors : List AuthorElem
  doi : String
  mesh_terms : List String
  keywords : List String
  publication_types : List String
  study_type : String
  country : List String
  institutions : List String
  technology_mentions : List (String × Nat)
deriving DecidableEq, Repr

/-- The per-record loop of `_process_article_data` as it actually runs.
`lastPmid` is the Python local variable `pmid`, `acc` the `processed`
list.  For a record with a `<PMID>`, `pmid` is bound and the dictionary
construction then reaches `self._extract_authors(article)`, which raises
`AttributeError` (the method is dedented out of the class); the handler
prints with the bound `pmid` and the loop continues, the record dropped
and `processed` never appended.  For a record without a `<PMID>`, the
failure happens before `pmid` is assigned, and the handler
`print(f"Error processing article ⟨pmid⟩ ...")` reads it: with a stale
binding from an earlier record the print succeeds and the loop continues;
with no binding yet the handler itself raises `UnboundLocalError`, which
the outer handler turns into an immediate `[]` return for the whole
batch. -/
def processGo : List Record → Option String → List Article → List Article
  | [], _, acc => acc
  | r :: rs, lastPmid, acc =>
    match r.pmid with
    | some p => processGo rs (some p) acc
    | none =>
      match lastPmid with
      | some _ => processGo rs lastPmid acc
      | none => []

/-- `EnhancedPubMedConnector._process_article_data` on an already-parsed
list of record elements. -/
def processArticleData (records : List Record) : List Article :=
  processGo records none []

/-- A record with no `<PMID>` element. -/
def recNoPmid : Record :=
  { pmid := none, title := "t0", abstract := "", journal := "", pubdate := none,
    authors := [], doi := "", meshTerms := [], keywords := [], pubTypes := [],
    affiliations := [] }

/-- A well-formed record. -/
def recGood : Record :=
  { pmid := some "111", title := "Good", abstract := "", journal := "J",
    pubdate := some ⟨"2021", "Feb", "3"⟩, authors := [], doi := "", meshTerms := [],
    keywords := [], pubTypes := [], affiliations := [] }

/-! ## PaginatedHarvester: search_articles -/

/-- Outcome of one esearch round-trip, as discriminated by the
`try/except requests.RequestException` block of `search_articles`:
`reqError` covers network errors, non-2xx statuses (`raise_for_status`)
and undecodable-JSON bodies (all `RequestException`s, hence caught);
`badShape` is a body that decodes to JSON lacking the
`esearchresult`/`idlist` keys, whose subscription raises an uncaught
`KeyError`; `ok` carries the id list and the reported total count. -/
inductive EsearchResp where
  | reqError : EsearchResp
  | badShape : EsearchResp
  | ok : List String → Nat → EsearchResp
deriving DecidableEq, Repr

/-- The pagination loop of `search_articles`, with the esearch transport
abstracted as `search : retstart ↦ response` and the fetch stage
(`fetch_articles`, which catches every exception and so never raises) as
`fetch`.  The second component of the result counts fetch calls;
`Except.error` models an exception escaping the loop.  `fuel` bounds the
recursion; `searchArticles` supplies `maxResults + 1`, which is never
exhausted since `retstart` grows by `retmax ≥ 1` per iteration. -/
def searchLoop {α : Type} (search : Nat → EsearchResp) (fetch : List String → List α)
    (maxResults retmax : Nat) :
    Nat → Nat → List α → Nat → Except Unit (List α × Nat)
  | 0, _, acc, calls => Except.ok (acc, calls)
  | fuel + 1, retstart, acc, calls =>
    if retstart < maxResults then
      match search retstart with
      | EsearchResp.reqError => Except.ok (acc, calls)
      | EsearchResp.badShape => Except.error ()
      | EsearchResp.ok pmids count =>
        if pmids.isEmpty then Except.ok (acc, calls)
        else
          let acc2 := acc ++ fetch pmids
          let retstart2 := retstart + retmax
          if count ≤ retstart2 ∨ maxResults ≤ acc2.length then Except.ok (acc2, calls + 1)
          else searchLoop search fetch maxResults retmax fuel retstart2 acc2 (calls + 1)
    else Except.ok (acc, calls)

/-- The per-request batch size of `search_articles`:
`retmax = min(100, max_results)`. -/
def retmaxOf (maxResults : Nat) : Nat := min 100 maxResults

/-- `EnhancedPubMedConnector.search_articles`: batch size
`retmax = min(100, max_results)`, pagination from offset 0, and final
truncation `total_results[:max_results]`. -/
def searchArticles {α : Type} (search : Nat → EsearchResp) (fetch : List String → List α)
    (maxResults : Nat) : Except Unit (List α × Nat) :=
  (searchLoop search fetch maxResults (retmaxOf maxResults) (maxResults + 1) 0 [] 0).map
    (fun r => (r.1.take maxResults, r.2))

/-- The mock search API of the harvest-truncation scenario: 100 ids at
offset 0, 100 more at offset 100, none elsewhere, reported total `count`. -/
def mockTwoBatches (b1 b2 : List String) (count : Nat) : Nat → EsearchResp :=
  fun retstart =>
    if retstart = 0 then EsearchResp.ok b1 count
    else if retstart = 100 then EsearchResp.ok b2 count
    else EsearchResp.ok [] count

/-- A mock search API whose first batch succeeds and whose second request
fails with a `requests.RequestException`-class error. -/
def mockThenError (b1 : List String) (count : Nat) : Nat → EsearchResp :=
  fun retstart => if retstart = 0 then EsearchResp.ok b1 count else EsearchResp.reqError

/-! ## CorpusAnalyzer -/

/-- Boolean code-point-wise `<` on char lists: Python's string `<`. -/
def charListLt : List Char → List Char → Bool
  | [], [] => false
  | [], _ :: _ => true
  | _ :: _, [] => false
  | a :: as, b :: bs =>
    if a.toNat < b.toNat then true
    else if b.toNat < a.toNat then false
    else charListLt as bs

/-- Python string `<` (lexicographic by code point). -/
def strLtB (a b : String) : Bool := charListLt a.data b.data

/-- Python string `<=`. -/
def strLeB (a b : String) : Bool := !strLtB b a

/-- Stable insertion into a sorted list: `x` goes before the first element
`y` with `le x y`. -/
def sinsert {α : Type} (le : α → α → Bool) (x : α) : List α → List α
  | [] => [x]
  | y :: ys => if le x y then x :: y :: ys else y :: sinsert le x ys

/-- Stable insertion sort, modelling Python's stable `sorted`. -/
def isort {α : Type} (le : α → α → Bool) : List α → List α
  | [] => []
  | x :: xs => sinsert le x (isort le xs)

/-- Python `sorted` on a list of strings. -/
def sortStrings (l : List String) : List String := isort strLeB l

/-- Python `m[k] = m.get(k, 0) + 1` on a counter dict. -/
def bumpCount : List (String × Nat) → String → List (String × Nat)
  | [], k => [(k, 1)]
  | p :: rest, k => if p.1 = k then (p.1, p.2 + 1) :: rest else p :: bumpCount rest k

/-- Python `if y not in yt: yt[y] = ⟨⟩` followed by
`yt[y][k] = yt[y].get(k, 0) + 1` on a nested counter dict. -/
def bumpNested : List (String × List (String × Nat)) → String → String →
    List (String × List (String × Nat))
  | [], y, k => [(y, [(k, 1)])]
  | p :: rest, y, k =>
    if p.1 = y then (p.1, bumpCount p.2 k) :: rest else p :: bumpNested rest y k

/-- The year bucket used throughout the analyzer:
`article['publication_date'][:4] if article['publication_date'] else 'unknown'`. -/
def yearOf (a : Article) : String :=
  if a.publication_date = "" then "unknown" else strTake a.publication_date 4

/-- The contribution of one article to `yearly_topics` in
`_analyze_research_focus`: one bump per keyword occurrence, skipped for
undated articles. -/
def ytAddArticle (yt : List (String × List (String × Nat))) (a : Article) :
    List (String × List (String × Nat)) :=
  a.keywords.foldl
    (fun yt kw => if yearOf a = "unknown" then yt else bumpNested yt (yearOf a) kw) yt

/-- The `yearly_topics` nested counter of `_analyze_research_focus`. -/
def yearlyTopicsOf (articles : List Article) : List (String × List (String × Nat)) :=
  articles.foldl ytAddArticle []

/-- The `focus['keywords']` counter of `_analyze_research_focus`. -/
def keywordCountsOf (articles : List Article) : List (String × Nat) :=
  articles.foldl (fun m a => a.keywords.foldl (fun m kw => bumpCount m kw) m) []

/-- The `focus['mesh_terms']` counter of `_analyze_research_focus`. -/
def meshCountsOf (articles : List Article) : List (String × Nat) :=
  articles.foldl (fun m a => a.mesh_terms.foldl (fun m t => bumpCount m t) m) []

/-- One `emerging_topics` value: `recent_count`, `previous_count` and the
float `growth_rate`, modelled in `ℚ`. -/
structure EmergingEntry where
  recent_count : Nat
  previous_count : Nat
  growth_rate : ℚ
deriving DecidableEq, Repr

/-- `sorted(yearly_topics.keys())`. -/
def sortedYearsOf (articles : List Article) : List String :=
  sortStrings ((yearlyTopicsOf articles).map (fun p => p.1))

/-- `recent_years[-1]`: the last of the sorted year keys. -/
def recentYearOf (articles : List Article) : String :=
  (sortedYearsOf articles).getLast?.getD ""

/-- `recent_years[-2]`: the second-to-last of the sorted year keys. -/
def prevYearOf (articles : List Article) : String :=
  ((sortedYearsOf articles).drop ((sortedYearsOf articles).length - 2)).headD ""

/-- `yearly_topics[recent_years[-1]]` (the key always exists; `alookupD`
with default `[]` models the direct indexing). -/
def recentMapOf (articles : List Article) : List (String × Nat) :=
  alookupD (yearlyTopicsOf articles) (recentYearOf articles) []

/-- `yearly_topics.get(recent_years[-2], ⟨⟩)`; also the dict indexed by
`yearly_topics[recent_years[-2]]` in the entry values. -/
def prevMapOf (articles : List Article) : List (String × Nat) :=
  alookupD (yearlyTopicsOf articles) (prevYearOf articles) []

/-- The `emerging_topics` computation of `_analyze_research_focus`:
guarded by at least two year keys; for each topic counted in the most
recent year, emit an entry when the topic is present in the previous year
with a strictly smaller count, with
`growth_rate = (counts - prev.get(topic, 0)) / prev.get(topic, 1)`. -/
def emergingTopicsOf (articles : List Article) : List (String × EmergingEntry) :=
  if 2 ≤ (sortedYearsOf articles).length then
    (recentMapOf articles).filterMap (fun tc =>
      if (alookup (prevMapOf articles) tc.1).isSome ∧
          alookupD (prevMapOf articles) tc.1 0 < tc.2 then
        some (tc.1,
          { recent_count := tc.2
            previous_count := alookupD (prevMapOf articles) tc.1 0
            growth_rate := ((tc.2 : ℚ) - ((alookupD (prevMapOf articles) tc.1 0 : ℕ) : ℚ)) /
              ((alookupD (prevMapOf articles) tc.1 1 : ℕ) : ℚ) })
      else none)
  else []

/-- The `research_focus` report of `_analyze_research_focus`. -/
structure ResearchFocus where
  keywords : List (String × Nat)
  mesh_terms : List (String × Nat)
  emerging_topics : List (String × EmergingEntry)
deriving DecidableEq, Repr

def researchFocusOf (articles : List Article) : ResearchFocus :=
  { keywords := keywordCountsOf articles
    mesh_terms := meshCountsOf articles
    emerging_topics := emergingTopicsOf articles }

/-- Spec-side: the sorted distinct years of the dated articles of a
corpus (the claim's "years spanned by dated articles"). -/
def datedYearsOf (articles : List Article) : List String :=
  sortStrings ((articles.filterMap (fun a =>
    if a.publication_date = "" then none
    else some (strTake a.publication_date 4))).dedup)

/-- Spec-side: the number of occurrences of keyword `t` among the articles
of year bucket `y`. -/
def kwOccCount (articles : List Article) (y t : String) : Nat :=
  ((articles.filter (fun a => yearOf a == y)).map (fun a => a.keywords.count t)).sum

/-- The accumulator entry of `_analyze_authors`
(`affiliations` is a Python `set`, modelled in first-seen order). -/
structure AuthorStat where
  count : Nat
  affiliations : List String
  recent_year : String
  articles : List String
deriving DecidableEq, Repr

/-- The accumulator entry of `_analyze_institutions`
(`countries` is a Python `set`, modelled in first-seen order). -/
structure InstStat where
  count : Nat
  countries : List String
  recent_year : String
  articles : List String
deriving DecidableEq, Repr

/-- The shared recent-year update:
`if article['publication_date']: ... if not recent or year > recent`. -/
def updRecentYear (recent : String) (pubdate : String) : String :=
  if pubdate ≠ "" then
    (if recent = "" ∨ strLtB recent (strTake pubdate 4) then strTake pubdate 4 else recent)
  else recent

/-- Python dict upsert: initialise the key with `init` if absent, then
mutate its value with `f`. -/
def updAList {α : Type} (m : List (String × α)) (k : String) (init : α) (f : α → α) :
    List (String × α) :=
  match m with
  | [] => [(k, f init)]
  | p :: rest => if p.1 = k then (p.1, f p.2) :: rest else p :: updAList rest k init f

def emptyAuthorStat : AuthorStat := { count := 0, affiliations := [], recent_year := "", articles := [] }

def emptyInstStat : InstStat := { count := 0, countries := [], recent_year := "", articles := [] }

/-- The body of the author loop in `_analyze_authors`. -/
def updateAuthorStat (au : AuthorElem) (art : Article) (st : AuthorStat) : AuthorStat :=
  { count := st.count + 1
    affiliations :=
      if au.affiliation ≠ "" then insertNew st.affiliations au.affiliation
      else st.affiliations
    recent_year := updRecentYear st.recent_year art.publication_date
    articles := st.articles ++ [art.pmid] }

/-- The body of the institution loop in `_analyze_institutions`. -/
def updateInstStat (art : Article) (st : InstStat) : InstStat :=
  { count := st.count + 1
    countries := art.country.foldl insertNew st.countries
    recent_year := updRecentYear st.recent_year art.publication_date
    articles := st.articles ++ [art.pmid] }

/-- The `author_stats` dict of `_analyze_authors`, keyed by
`"lastname, firstname"`. -/
def authorStatsOf (articles : List Article) : List (String × AuthorStat) :=
  articles.foldl (fun stats art =>
    art.authors.foldl (fun stats au =>
      updAList stats (au.lastname ++ ", " ++ au.firstname) emptyAuthorStat
        (updateAuthorStat au art)) stats) []

/-- The `institution_stats` dict of `_analyze_institutions`. -/
def instStatsOf (articles : List Article) : List (String × InstStat) :=
  articles.foldl (fun stats art =>
    art.institutions.foldl (fun stats inst =>
      updAList stats inst emptyInstStat (updateInstStat art)) stats) []

/-- One element of the `_analyze_authors` output list. -/
structure AuthorOut where
  name : String
  publication_count : Nat
  affiliations : List String
  recent_year : String
  articles : List String
deriving DecidableEq, Repr

/-- One element of the `_analyze_institutions` output list. -/
structure InstOut where
  name : String
  publication_count : Nat
  countries : List String
  recent_year : String
  articles : List String
deriving DecidableEq, Repr

/-- `EnhancedPubMedConnector._analyze_authors`: the accumulated stats,
listed in dict order and sorted stably by descending publication count. -/
def analyzeAuthors (articles : List Article) : List AuthorOut :=
  isort (fun x y => decide (y.publication_count ≤ x.publication_count))
    ((authorStatsOf articles).map (fun p =>
      { name := p.1, publication_count := p.2.count, affiliations := p.2.affiliations,
        recent_year := p.2.recent_year, articles := p.2.articles }))

/-- `EnhancedPubMedConnector._analyze_institutions`. -/
def analyzeInstitutions (articles : List Article) : List InstOut :=
  isort (fun x y => decide (y.publication_count ≤ x.publication_count))
    ((instStatsOf articles).map (fun p =>
      { name := p.1, publication_count := p.2.count, countries := p.2.countries,
        recent_year := p.2.recent_year, articles := p.2.articles }))

/-- Structural invariant of the `yearly_topics` nested counter: distinct
year keys, none of them the `'unknown'` bucket, and each inner counter has
distinct keys and strictly positive counts. -/
def YtGood (yt : List (String × List (String × Nat))) : Prop :=
  (yt.map (fun p => p.1)).Nodup ∧
  ∀ p ∈ yt, p.1 ≠ "unknown" ∧ (p.2.map (fun q => q.1)).Nodup ∧ ∀ q ∈ p.2, 1 ≤ q.2

/-- A minimal article carrying only a date and keywords (all the analyzer
reads for emerging topics). -/
def artKw (date : String) (kws : List String) : Article :=
  { pmid := "0", title := "", abstract := "", journal := "", publication_date := date,
    authors := [], doi := "", mesh_terms := [], keywords := kws, publication_types := [],
    study_type := "", country := [], institutions := [], technology_mentions := [] }

/-- A corpus whose dated articles span 2019–2021 but whose keyword
occurrences stop in 2020: keyword `"a"` appears once in 2019, twice in
2020, and the sole 2021 article has no keywords. -/
def exCorpus : List Article :=
  [artKw "2019-01-01" ["a"], artKw "2020-01-01" ["a"], artKw "2020-06-01" ["a"],
   artKw "2021-01-01" []]

/-- Keyword `"telemedicine"`: 5 occurrences in 2020, 8 in 2021. -/
def teleCorpus : List Article :=
  List.replicate 5 (artKw "2020-01-01" ["telemedicine"]) ++
    List.replicate 8 (artKw "2021-01-01" ["telemedicine"])

/-- The emerging entry the analyzer computes for `teleCorpus`, with the
growth-rate expression in the exact arithmetic shape the code produces
(`(8 - 5) / 5 = 0.6`). -/
def teleEntry : EmergingEntry :=
  { recent_count := 8, previous_count := 5,
    growth_rate := (((8 : ℕ) : ℚ) - ((5 : ℕ) : ℚ)) / ((5 : ℕ) : ℚ) }

/-- A one-article corpus with one author and one institution. -/
def artA : Article :=
  { pmid := "1", title := "", abstract := "", journal := "",
    publication_date := "2021-02-03", authors := [⟨"Doe", "Jane", "JD", "U"⟩], doi := "",
    mesh_terms := [], keywords := [], publication_types := [], study_type := "Other",
    country := [], institutions := ["X University"], technology_mentions := [] }

/-! ## Helper lemmas -/

lemma alookup_nil {α : Type} (k : String) : alookup ([] : List (String × α)) k = none := rfl

lemma alookup_cons {α : Type} (p : String × α) (rest : List (String × α)) (k : String) :
    alookup (p :: rest) k = if p.1 = k then some p.2 else alookup rest k := by
  unfold alookup
  by_cases h : p.1 = k
  · rw [List.find?_cons_of_pos _ (by simpa using h), if_pos h]
    rfl
  · rw [List.find?_cons_of_neg _ (by simpa using h), if_neg h]

lemma alookupD_nil {α : Type} (k : String) (d : α) :
    alookupD ([] : List (String × α)) k d = d := rfl

lemma alookupD_cons {α : Type} (p : String × α) (rest : List (String × α)) (k : String) (d : α) :
    alookupD (p :: rest) k d = if p.1 = k then p.2 else alookupD rest k d := by
  unfold alookupD
  rw [alookup_cons]
  by_cases h : p.1 = k <;> simp [h]

lemma alookupD_of_alookup_some {α : Type} {m : List (String × α)} {k : String} {v : α}
    (h : alookup m k = some v) (d : α) : alookupD m k d = v := by
  unfold alookupD
  rw [h]
  rfl

lemma alookup_mem {α : Type} {m : List (String × α)} {k : String} {v : α}
    (h : alookup m k = some v) : (k, v) ∈ m := by
  unfold alookup at h
  cases hf : m.find? (fun p => p.1 = k) with
  | none => rw [hf] at h; exact Option.noConfusion h
  | some p =>
    rw [hf] at h
    simp at h
    have hmem := List.mem_of_find?_eq_some hf
    have hkey : p.1 = k := by simpa using List.find?_some hf
    have : p = (k, v) := by
      cases p
      simp only at hkey h
      simp [hkey, h]
    rw [this] at hmem
    exact hmem

lemma alookup_eq_some_of_mem {α : Type} {m : List (String × α)}
    (hm : (m.map (fun p => p.1)).Nodup) {k : String} {v : α} (h : (k, v) ∈ m) :
    alookup m k = some v := by
  induction m with
  | nil => simp at h
  | cons p rest ih =>
    rw [alookup_cons]
    rw [List.map_cons, List.nodup_cons] at hm
    rcases List.mem_cons.mp h with heq | hrest
    · rw [if_pos (by rw [← heq])]
      rw [← heq]
    · have hk : p.1 ≠ k := by
        intro hk
        exact hm.1 (hk ▸ (List.mem_map.mpr ⟨(k, v), hrest, rfl⟩))
      rw [if_neg hk]
      exact ih hm.2 hrest

lemma alookup_of_alookupD_pos {m : List (String × Nat)} {k : String}
    (h : 0 < alookupD m k 0) : alookup m k = some (alookupD m k 0) := by
  unfold alookupD at h ⊢
  cases hf : alookup m k with
  | none => rw [hf] at h; simp at h
  | some v => rfl

lemma alookupD_bumpCount (m : List (String × Nat)) (k t : String) :
    alookupD (bumpCount m k) t 0 = alookupD m t 0 + (if t = k then 1 else 0) := by
  induction m with
  | nil =>
    show alookupD [(k, 1)] t 0 = alookupD [] t 0 + _
    rw [alookupD_cons, alookupD_nil]
    by_cases h : t = k
    · rw [if_pos h.symm, if_pos h]
    · rw [if_neg (fun hc => h hc.symm), if_neg h]
  | cons p rest ih =>
    show alookupD (if p.1 = k then (p.1, p.2 + 1) :: rest else p :: bumpCount rest k) t 0 = _
    by_cases hpk : p.1 = k
    · rw [if_pos hpk, alookupD_cons, alookupD_cons]
      by_cases hpt : p.1 = t
      · rw [if_pos hpt, if_pos hpt, if_pos (hpt.symm.trans hpk : t = k)]
      · rw [if_neg hpt, if_neg hpt,
          if_neg (fun hc : t = k => hpt (hpk.trans hc.symm))]
        simp
    · rw [if_neg hpk, alookupD_cons, alookupD_cons, ih]
      by_cases hpt : p.1 = t
      · rw [if_pos hpt, if_pos hpt,
          if_neg (fun hc : t = k => hpk (hpt.trans hc))]
        simp
      · rw [if_neg hpt, if_neg hpt]

lemma bumpCount_keys (m : List (String × Nat)) (k : String) :
    (bumpCount m k).map (fun p => p.1) =
      if k ∈ m.map (fun p => p.1) then m.map (fun p => p.1)
      else m.map (fun p => p.1) ++ [k] := by
  induction m with
  | nil => simp [bumpCount]
  | cons p rest ih =>
    show (if p.1 = k then (p.1, p.2 + 1) :: rest else p :: bumpCount rest k).map _ = _
    by_cases hpk : p.1 = k
    · rw [if_pos hpk]
      simp [hpk]
    · rw [if_neg hpk]
      by_cases hk : k ∈ rest.map (fun p => p.1)
      · simp only [List.map_cons, ih, if_pos hk]
        rw [if_pos (List.mem_cons_of_mem _ hk)]
      · simp only [List.map_cons, ih, if_neg hk]
        rw [if_neg (by
          intro hc
          rcases List.mem_cons.mp hc with h1 | h2
          · exact hpk h1.symm
          · exact hk h2)]
        simp

lemma bumpCount_values_pos {m : List (String × Nat)} (hm : ∀ q ∈ m, 1 ≤ q.2) (k : String) :
    ∀ q ∈ bumpCount m k, 1 ≤ q.2 := by
  induction m with
  | nil =>
    intro q hq
    simp [bumpCount] at hq
    simp [hq]
  | cons p rest ih =>
    intro q hq
    show 1 ≤ q.2
    by_cases hpk : p.1 = k
    · rw [show bumpCount (p :: rest) k = (p.1, p.2 + 1) :: rest from by
        simp [bumpCount, hpk]] at hq
      rcases List.mem_cons.mp hq with h1 | h2
      · rw [h1]; exact Nat.le_add_left 1 p.2
      · exact hm q (List.mem_cons_of_mem _ h2)
    · rw [show bumpCount (p :: rest) k = p :: bumpCount rest k from by
        simp [bumpCount, hpk]] at hq
      rcases List.mem_cons.mp hq with h1 | h2
      · exact hm q (h1 ▸ List.mem_cons_self _ _)
      · exact ih (fun q hq => hm q (List.mem_cons_of_mem _ hq)) q h2

lemma alookupD_bumpNested (yt : List (String × List (String × Nat))) (y k y' : String) :
    alookupD (bumpNested yt y k) y' [] =
      if y' = y then bumpCount (alookupD yt y []) k else alookupD yt y' [] := by
  induction yt with
  | nil =>
    show alookupD [(y, [(k, 1)])] y' [] = _
    rw [alookupD_cons]
    simp only [alookupD_nil]
    by_cases h : y' = y
    · rw [if_pos h.symm, if_pos h]
      rfl
    · rw [if_neg (fun hc => h hc.symm), if_neg h]
  | cons p rest ih =>
    show alookupD (if p.1 = y then (p.1, bumpCount p.2 k) :: rest
        else p :: bumpNested rest y k) y' [] = _
    by_cases hy' : y' = y
    · subst hy'
      rw [if_pos rfl]
      by_cases hpy : p.1 = y'
      · rw [if_pos hpy, alookupD_cons, if_pos hpy, alookupD_cons, if_pos hpy]
      · rw [if_neg hpy, alookupD_cons, if_neg hpy, alookupD_cons, if_neg hpy, ih, if_pos rfl]
    · rw [if_neg hy']
      by_cases hpy : p.1 = y
      · rw [if_pos hpy, alookupD_cons, alookupD_cons]
        have hpy' : ¬ p.1 = y' := fun hc => hy' (hc.symm.trans hpy)
        rw [if_neg hpy', if_neg hpy']
      · rw [if_neg hpy, alookupD_cons, ih, if_neg hy', alookupD_cons]

lemma bumpNested_keys (yt : List (String × List (String × Nat))) (y k : String) :
    (bumpNested yt y k).map (fun p => p.1) =
      if y ∈ yt.map (fun p => p.1) then yt.map (fun p => p.1)
      else yt.map (fun p => p.1) ++ [y] := by
  induction yt with
  | nil => simp [bumpNested]
  | cons p rest ih =>
    show (if p.1 = y then (p.1, bumpCount p.2 k) :: rest else p :: bumpNested rest y k).map _ = _
    by_cases hpy : p.1 = y
    · rw [if_pos hpy]
      simp [hpy]
    · rw [if_neg hpy]
      by_cases hy : y ∈ rest.map (fun p => p.1)
      · simp only [List.map_cons, ih, if_pos hy]
        rw [if_pos (List.mem_cons_of_mem _ hy)]
      · simp only [List.map_cons, ih, if_neg hy]
        rw [if_neg (by
          intro hc
          rcases List.mem_cons.mp hc with h1 | h2
          · exact hpy h1.symm
          · exact hy h2)]
        simp

lemma mem_bumpNested {yt : List (String × List (String × Nat))} {y k : String}
    {p : String × List (String × Nat)} (hp : p ∈ bumpNested yt y k) :
    (∃ q ∈ yt, q.1 = y ∧ p = (q.1, bumpCount q.2 k)) ∨ p ∈ yt ∨ p = (y, [(k, 1)]) := by
  induction yt with
  | nil =>
    right; right
    simpa [bumpNested] using hp
  | cons q rest ih =>
    by_cases hqy : q.1 = y
    · rw [show bumpNested (q :: rest) y k = (q.1, bumpCount q.2 k) :: rest from by
        simp [bumpNested, hqy]] at hp
      rcases List.mem_cons.mp hp with h1 | h2
      · exact Or.inl ⟨q, List.mem_cons_self _ _, hqy, h1⟩
      · exact Or.inr (Or.inl (List.mem_cons_of_mem _ h2))
    · rw [show bumpNested (q :: rest) y k = q :: bumpNested rest y k from by
        simp [bumpNested, hqy]] at hp
      rcases List.mem_cons.mp hp with h1 | h2
      · exact Or.inr (Or.inl (h1 ▸ List.mem_cons_self _ _))
      · rcases ih h2 with ⟨q2, hq2, hq2y, hpq2⟩ | hin | hfresh
        · exact Or.inl ⟨q2, List.mem_cons_of_mem _ hq2, hq2y, hpq2⟩
        · exact Or.inr (Or.inl (List.mem_cons_of_mem _ hin))
        · exact Or.inr (Or.inr hfresh)

lemma nodup_append_single {l : List String} (hl : l.Nodup) (a : String) (ha : a ∉ l) :
    (l ++ [a]).Nodup := by
  induction l with
  | nil => simp
  | cons b rest ih =>
    rw [List.nodup_cons] at hl
    rw [List.cons_append, List.nodup_cons]
    refine ⟨?_, ih hl.2 (fun hc => ha (List.mem_cons_of_mem _ hc))⟩
    intro hc
    rcases List.mem_append.mp hc with h1 | h2
    · exact hl.1 h1
    · have hba : b = a := List.mem_singleton.mp h2
      exact ha (by rw [← hba]; exact List.mem_cons_self b rest)

lemma ytGood_bumpNested {yt : List (String × List (String × Nat))}
    (hyt : YtGood yt) {y : String} (hy : y ≠ "unknown") (k : String) :
    YtGood (bumpNested yt y k) := by
  constructor
  · rw [bumpNested_keys]
    by_cases hmem : y ∈ yt.map (fun p => p.1)
    · rw [if_pos hmem]; exact hyt.1
    · rw [if_neg hmem]; exact nodup_append_single hyt.1 y hmem
  · intro p hp
    rcases mem_bumpNested hp with ⟨q, hq, hqy, hpq⟩ | hin | hfresh
    · obtain ⟨hq1, hq2, hq3⟩ := hyt.2 q hq
      subst hpq
      refine ⟨hq1, ?_, bumpCount_values_pos hq3 k⟩
      rw [bumpCount_keys]
      by_cases hkm : k ∈ q.2.map (fun r => r.1)
      · rw [if_pos hkm]; exact hq2
      · rw [if_neg hkm]; exact nodup_append_single hq2 k hkm
    · exact hyt.2 p hin
    · subst hfresh
      exact ⟨hy, by simp, by simp⟩

lemma foldl_preserve {β γ : Type} (P : γ → Prop) (step : γ → β → γ)
    (h : ∀ s b, P s → P (step s b)) :
    ∀ (l : List β) (init : γ), P init → P (l.foldl step init) := by
  intro l
  induction l with
  | nil => intro init h0; exact h0
  | cons b rest ih =>
    intro init h0
    rw [List.foldl_cons]
    exact ih (step init b) (h init b h0)

lemma ytGood_ytAddArticle (a : Article) {yt : List (String × List (String × Nat))}
    (hyt : YtGood yt) : YtGood (ytAddArticle yt a) := by
  unfold ytAddArticle
  refine foldl_preserve YtGood _ ?_ a.keywords yt hyt
  intro s kw hs
  by_cases hun : yearOf a = "unknown"
  · rw [if_pos hun]; exact hs
  · rw [if_neg hun]; exact ytGood_bumpNested hs hun kw

lemma ytGood_yearlyTopics (articles : List Article) : YtGood (yearlyTopicsOf articles) := by
  unfold yearlyTopicsOf
  refine foldl_preserve YtGood ytAddArticle ?_ articles [] ⟨by simp, by simp⟩
  intro s a hs
  exact ytGood_ytAddArticle a hs

lemma kwOccCount_nil (y t : String) : kwOccCount [] y t = 0 := rfl

lemma kwOccCount_cons (a : Article) (rest : List Article) (y t : String) :
    kwOccCount (a :: rest) y t =
      (if yearOf a = y then a.keywords.count t else 0) + kwOccCount rest y t := by
  unfold kwOccCount
  rw [List.filter_cons]
  by_cases h : yearOf a = y
  · rw [if_pos (by simpa using h), if_pos h]
    simp
  · rw [if_neg (by simpa using h), if_neg h]
    simp

lemma foldkw_alookupD2 (a : Article) (y t : String) (hy : y ≠ "unknown") :
    ∀ (kws : List String) (yt : List (String × List (String × Nat))),
      alookupD (alookupD (kws.foldl (fun yt kw =>
          if yearOf a = "unknown" then yt else bumpNested yt (yearOf a) kw) yt) y []) t 0
        = alookupD (alookupD yt y []) t 0 + (if yearOf a = y then kws.count t else 0) := by
  intro kws
  induction kws with
  | nil =>
    intro yt
    simp
  | cons kw rest ih =>
    intro yt
    rw [List.foldl_cons, ih]
    by_cases hun : yearOf a = "unknown"
    · have hne : ¬ yearOf a = y := fun hc => hy (hc.symm.trans hun)
      rw [if_pos hun, if_neg hne, if_neg hne]
    · rw [if_neg hun]
      by_cases hya : yearOf a = y
      · have h1 : alookupD (alookupD (bumpNested yt (yearOf a) kw) y []) t 0
            = alookupD (alookupD yt y []) t 0 + (if t = kw then 1 else 0) := by
          rw [alookupD_bumpNested, if_pos hya.symm, hya, alookupD_bumpCount]
        rw [h1, if_pos hya, if_pos hya, List.count_cons]
        by_cases htk : t = kw
        · have : (kw == t) = true := by simp [htk]
          rw [if_pos htk, if_pos this]
          omega
        · have : ¬ ((kw == t) = true) := by simp; exact fun hc => htk hc.symm
          rw [if_neg htk, if_neg this]
          omega
      · have h1 : alookupD (alookupD (bumpNested yt (yearOf a) kw) y []) t 0
            = alookupD (alookupD yt y []) t 0 := by
          rw [alookupD_bumpNested, if_neg (fun hc : y = yearOf a => hya hc.symm)]
        rw [h1, if_neg hya, if_neg hya]

lemma alookupD2_yearlyTopics (articles : List Article) (y t : String) (hy : y ≠ "unknown") :
    alookupD (alookupD (yearlyTopicsOf articles) y []) t 0 = kwOccCount articles y t := by
  suffices h : ∀ yt, alookupD (alookupD (articles.foldl ytAddArticle yt) y []) t 0
      = alookupD (alookupD yt y []) t 0 + kwOccCount articles y t by
    have h2 := h []
    rw [alookupD_nil, alookupD_nil] at h2
    rw [show yearlyTopicsOf articles = articles.foldl ytAddArticle [] from rfl, h2]
    omega
  induction articles with
  | nil =>
    intro yt
    simp [kwOccCount_nil]
  | cons a rest ih =>
    intro yt
    rw [List.foldl_cons, ih (ytAddArticle yt a),
      show ytAddArticle yt a = a.keywords.foldl (fun yt kw =>
        if yearOf a = "unknown" then yt else bumpNested yt (yearOf a) kw) yt from rfl,
      foldkw_alookupD2 a y t hy a.keywords yt, kwOccCount_cons]
    omega

lemma mem_sinsert {α : Type} (le : α → α → Bool) (x y : α) (l : List α) :
    x ∈ sinsert le y l ↔ x = y ∨ x ∈ l := by
  induction l with
  | nil => simp [sinsert]
  | cons z zs ih =>
    show x ∈ (if le y z then y :: z :: zs else z :: sinsert le y zs) ↔ _
    by_cases h : le y z
    · rw [if_pos h]
      simp
    · rw [if_neg h]
      simp only [List.mem_cons, ih]
      tauto

lemma mem_isort {α : Type} (le : α → α → Bool) (x : α) (l : List α) :
    x ∈ isort le l ↔ x ∈ l := by
  induction l with
  | nil => simp [isort]
  | cons z zs ih =>
    show x ∈ sinsert le z (isort le zs) ↔ _
    rw [mem_sinsert]
    simp [ih]

lemma getLastD_mem {l : List String} (h : l ≠ []) (d : String) : l.getLast?.getD d ∈ l := by
  rw [List.getLast?_eq_getLast l h]
  exact List.getLast_mem h

lemma headD_drop_mem {l : List String} {k : Nat} (hk : k < l.length) (d : String) :
    (l.drop k).headD d ∈ l := by
  cases hd : l.drop k with
  | nil =>
    exfalso
    have := List.drop_eq_nil_iff.mp hd
    omega
  | cons a s =>
    have ha : a ∈ l.drop k := by rw [hd]; exact List.mem_cons_self _ _
    exact List.drop_subset k l ha

lemma inner_good (articles : List Article) (y : String) :
    ((alookupD (yearlyTopicsOf articles) y []).map (fun q => q.1)).Nodup ∧
    ∀ q ∈ alookupD (yearlyTopicsOf articles) y [], 1 ≤ q.2 := by
  have hg := ytGood_yearlyTopics articles
  unfold alookupD
  cases hf : alookup (yearlyTopicsOf articles) y with
  | none => simp
  | some inner =>
    have hmem := alookup_mem hf
    have hi := hg.2 _ hmem
    exact ⟨hi.2.1, hi.2.2⟩

lemma yt_keys_ne_unknown (articles : List Article) {y : String}
    (hy : y ∈ (yearlyTopicsOf articles).map (fun p => p.1)) : y ≠ "unknown" := by
  obtain ⟨p, hp, rfl⟩ := List.mem_map.mp hy
  exact ((ytGood_yearlyTopics articles).2 p hp).1

lemma recentYear_mem (articles : List Article) (h2 : 2 ≤ (sortedYearsOf articles).length) :
    recentYearOf articles ∈ (yearlyTopicsOf articles).map (fun p => p.1) := by
  have hne : sortedYearsOf articles ≠ [] := by
    intro hc
    rw [hc] at h2
    simp at h2
  have hm := getLastD_mem hne ""
  unfold sortedYearsOf sortStrings at hm
  exact (mem_isort _ _ _).mp hm

lemma prevYear_mem (articles : List Article) (h2 : 2 ≤ (sortedYearsOf articles).length) :
    prevYearOf articles ∈ (yearlyTopicsOf articles).map (fun p => p.1) := by
  have hk : (sortedYearsOf articles).length - 2 < (sortedYearsOf articles).length := by omega
  have hm := headD_drop_mem hk ""
  unfold sortedYearsOf sortStrings at hm
  exact (mem_isort _ _ _).mp hm

lemma mem_emergingTopics_iff (articles : List Article)
    (h2 : 2 ≤ (sortedYearsOf articles).length) (t : String) (e : EmergingEntry) :
    (t, e) ∈ emergingTopicsOf articles ↔
      ∃ rc pc : Nat, alookup (recentMapOf articles) t = some rc ∧
        alookup (prevMapOf articles) t = some pc ∧ pc < rc ∧
        e = { recent_count := rc, previous_count := pc,
              growth_rate := ((rc : ℚ) - (pc : ℚ)) / (pc : ℚ) } := by
  unfold emergingTopicsOf
  rw [if_pos h2, List.mem_filterMap]
  constructor
  · rintro ⟨tc, htc, hf⟩
    by_cases hcond : (alookup (prevMapOf articles) tc.1).isSome ∧
        alookupD (prevMapOf articles) tc.1 0 < tc.2
    · rw [if_pos hcond] at hf
      simp only [Option.some.injEq, Prod.mk.injEq] at hf
      obtain ⟨ht, he⟩ := hf
      obtain ⟨pc, hpc⟩ := Option.isSome_iff_exists.mp hcond.1
      refine ⟨tc.2, pc, ?_, ?_, ?_, ?_⟩
      · have hnd := (inner_good articles (recentYearOf articles)).1
        rw [← ht]
        exact alookup_eq_some_of_mem hnd (by rw [Prod.mk.eta]; exact htc)
      · rw [← ht]
        exact hpc
      · have hlt := hcond.2
        rw [alookupD_of_alookup_some hpc] at hlt
        exact hlt
      · rw [← he, alookupD_of_alookup_some hpc, alookupD_of_alookup_some hpc]
    · rw [if_neg hcond] at hf
      exact Option.noConfusion hf
  · rintro ⟨rc, pc, hrc, hpc, hlt, he⟩
    refine ⟨(t, rc), alookup_mem hrc, ?_⟩
    have hd0 : alookupD (prevMapOf articles) t 0 = pc := alookupD_of_alookup_some hpc 0
    have hd1 : alookupD (prevMapOf articles) t 1 = pc := alookupD_of_alookup_some hpc 1
    rw [if_pos ⟨by rw [show ((t, rc).1 : String) = t from rfl, hpc]; rfl,
      by rw [show ((t, rc).1 : String) = t from rfl, hd0]; exact hlt⟩]
    simp only [hd0, hd1, he]

lemma alookup_inner_iff_kwOcc (articles : List Article) {y : String}
    (hy : y ≠ "unknown") (t : String) (n : Nat) :
    alookup (alookupD (yearlyTopicsOf articles) y []) t = some n ↔
      (0 < kwOccCount articles y t ∧ n = kwOccCount articles y t) := by
  have hk := alookupD2_yearlyTopics articles y t hy
  constructor
  · intro h
    have hd : alookupD (alookupD (yearlyTopicsOf articles) y []) t 0 = n :=
      alookupD_of_alookup_some h 0
    have hpos : 1 ≤ n := (inner_good articles y).2 _ (alookup_mem h)
    rw [hd] at hk
    constructor
    · omega
    · exact hk
  · rintro ⟨hpos, rfl⟩
    have h0 : 0 < alookupD (alookupD (yearlyTopicsOf articles) y []) t 0 := by
      rw [hk]
      exact hpos
    have h1 := alookup_of_alookupD_pos h0
    rw [hk] at h1
    exact h1

lemma updAList_forall_values {α : Type} (P : α → Prop) (m : List (String × α)) (k : String)
    (init : α) (f : α → α) (hm : ∀ p ∈ m, P p.2) (hinit : P (f init))
    (hf : ∀ v, P v → P (f v)) : ∀ p ∈ updAList m k init f, P p.2 := by
  induction m with
  | nil =>
    intro p hp
    simp [updAList] at hp
    rw [hp]
    exact hinit
  | cons q rest ih =>
    intro p hp
    rw [show updAList (q :: rest) k init f =
        (if q.1 = k then (q.1, f q.2) :: rest else q :: updAList rest k init f) from rfl] at hp
    by_cases hqk : q.1 = k
    · rw [if_pos hqk] at hp
      rcases List.mem_cons.mp hp with h1 | h2
      · rw [h1]
        exact hf q.2 (hm q (List.mem_cons_self _ _))
      · exact hm p (List.mem_cons_of_mem _ h2)
    · rw [if_neg hqk] at hp
      rcases List.mem_cons.mp hp with h1 | h2
      · rw [h1]
        exact hm q (List.mem_cons_self _ _)
      · exact ih (fun r hr => hm r (List.mem_cons_of_mem _ hr)) p h2

lemma authorStats_count_eq (articles : List Article) :
    ∀ p ∈ authorStatsOf articles, p.2.count = p.2.articles.length := by
  unfold authorStatsOf
  refine foldl_preserve
    (fun m : List (String × AuthorStat) => ∀ p ∈ m, p.2.count = p.2.articles.length)
    _ ?_ articles [] (by simp)
  intro stats art hstats
  refine foldl_preserve
    (fun m : List (String × AuthorStat) => ∀ p ∈ m, p.2.count = p.2.articles.length)
    _ ?_ art.authors stats hstats
  intro m au hm
  refine updAList_forall_values (fun st : AuthorStat => st.count = st.articles.length)
    m _ emptyAuthorStat (updateAuthorStat au art) hm ?_ ?_
  · simp [updateAuthorStat, emptyAuthorStat]
  · intro v hv
    simp [updateAuthorStat, hv]

lemma instStats_count_eq (articles : List Article) :
    ∀ p ∈ instStatsOf articles, p.2.count = p.2.articles.length := by
  unfold instStatsOf
  refine foldl_preserve
    (fun m : List (String × InstStat) => ∀ p ∈ m, p.2.count = p.2.articles.length)
    _ ?_ articles [] (by simp)
  intro stats art hstats
  refine foldl_preserve
    (fun m : List (String × InstStat) => ∀ p ∈ m, p.2.count = p.2.articles.length)
    _ ?_ art.institutions stats hstats
  intro m inst hm
  refine updAList_forall_values (fun st : InstStat => st.count = st.articles.length)
    m _ emptyInstStat (updateInstStat art) hm ?_ ?_
  · simp [updateInstStat, emptyInstStat]
  · intro v hv
    simp [updateInstStat, hv]

lemma processGo_nil_acc : ∀ (rs : List Record) (lastPmid : Option String),
    processGo rs lastPmid [] = [] := by
  intro rs
  induction rs with
  | nil => intro lastPmid; rfl
  | cons r rest ih =>
    intro lastPmid
    rw [show processGo (r :: rest) lastPmid [] =
        (match r.pmid with
         | some p => processGo rest (some p) []
         | none =>
           match lastPmid with
           | some _ => processGo rest lastPmid []
           | none => []) from rfl]
    cases r.pmid with
    | some p => exact ih (some p)
    | none =>
      cases lastPmid with
      | some q => exact ih (some q)
      | none => rfl

lemma monthTable_value_ne_empty {k v : String} (h : alookup monthTable k = some v) : v ≠ "" := by
  unfold alookup at h
  cases hf : monthTable.find? (fun p => p.1 = k) with
  | none => rw [hf] at h; exact Option.noConfusion h
  | some p =>
    rw [hf] at h
    simp at h
    obtain rfl : p.2 = v := h
    have hp := List.mem_of_find?_eq_some hf
    fin_cases hp <;> decide

lemma mapMonth_ne_empty (m : String) (hm : isalphaStr m = true) : mapMonth m ≠ "" := by
  unfold mapMonth
  rw [if_pos hm]
  unfold alookupD
  cases h : alookup monthTable (strTake m 3) with
  | none => decide
  | some v => simpa using monthTable_value_ne_empty h

lemma containsSub_iff_occ_pos (n h : String) : containsSub n h = true ↔ 0 < specOccCount n h := by
  unfold containsSub specOccCount
  rw [List.any_eq_true, List.countP_pos_iff]

lemma mockTwoBatches_zero {b1 b2 : List String} {count : Nat} :
    mockTwoBatches b1 b2 count 0 = EsearchResp.ok b1 count := rfl

lemma mockTwoBatches_hundred {b1 b2 : List String} {count : Nat} :
    mockTwoBatches b1 b2 count 100 = EsearchResp.ok b2 count := rfl

lemma mockThenError_zero {b1 : List String} {count : Nat} :
    mockThenError b1 count 0 = EsearchResp.ok b1 count := rfl

lemma mockThenError_hundred {b1 : List String} {count : Nat} :
    mockThenError b1 count 100 = EsearchResp.reqError := rfl

lemma searchLoop_succ {α : Type} (search : Nat → EsearchResp) (fetch : List String → List α)
    (maxResults retmax fuel retstart : Nat) (acc : List α) (calls : Nat) :
    searchLoop search fetch maxResults retmax (fuel + 1) retstart acc calls =
      (if retstart < maxResults then
        match search retstart with
        | EsearchResp.reqError => Except.ok (acc, calls)
        | EsearchResp.badShape => Except.error ()
        | EsearchResp.ok pmids count =>
          if pmids.isEmpty then Except.ok (acc, calls)
          else
            let acc2 := acc ++ fetch pmids
            let retstart2 := retstart + retmax
            if count ≤ retstart2 ∨ maxResults ≤ acc2.length then Except.ok (acc2, calls + 1)
            else searchLoop search fetch maxResults retmax fuel retstart2 acc2 (calls + 1)
      else Except.ok (acc, calls)) := rfl

lemma searchLoop_succ_not_lt {α : Type} {search : Nat → EsearchResp}
    {fetch : List String → List α} {maxResults retmax fuel retstart : Nat} {acc : List α}
    {calls : Nat} (h : ¬ retstart < maxResults) :
    searchLoop search fetch maxResults retmax (fuel + 1) retstart acc calls =
      Except.ok (acc, calls) := by
  rw [searchLoop_succ, if_neg h]

lemma searchLoop_succ_reqError {α : Type} {search : Nat → EsearchResp}
    {fetch : List String → List α} {maxResults retmax fuel retstart : Nat} {acc : List α}
    {calls : Nat} (hlt : retstart < maxResults) (hs : search retstart = EsearchResp.reqError) :
    searchLoop search fetch maxResults retmax (fuel + 1) retstart acc calls =
      Except.ok (acc, calls) := by
  rw [searchLoop_succ, if_pos hlt, hs]

lemma searchLoop_succ_badShape {α : Type} {search : Nat → EsearchResp}
    {fetch : List String → List α} {maxResults retmax fuel retstart : Nat} {acc : List α}
    {calls : Nat} (hlt : retstart < maxResults) (hs : search retstart = EsearchResp.badShape) :
    searchLoop search fetch maxResults retmax (fuel + 1) retstart acc calls =
      Except.error () := by
  rw [searchLoop_succ, if_pos hlt, hs]

lemma searchLoop_succ_ok {α : Type} {search : Nat → EsearchResp}
    {fetch : List String → List α} {maxResults retmax fuel retstart : Nat} {acc : List α}
    {calls : Nat} {pmids : List String} {count : Nat}
    (hlt : retstart < maxResults) (hs : search retstart = EsearchResp.ok pmids count) :
    searchLoop search fetch maxResults retmax (fuel + 1) retstart acc calls =
      (if pmids.isEmpty then Except.ok (acc, calls)
       else if count ≤ retstart + retmax ∨ maxResults ≤ (acc ++ fetch pmids).length then
         Except.ok (acc ++ fetch pmids, calls + 1)
       else searchLoop search fetch maxResults retmax fuel (retstart + retmax)
         (acc ++ fetch pmids) (calls + 1)) := by
  rw [searchLoop_succ, if_pos hlt, hs]

lemma searchLoop_no_badshape {α : Type} (search : Nat → EsearchResp)
    (fetch : List String → List α) (maxResults retmax : Nat)
    (h : ∀ rs, search rs ≠ EsearchResp.badShape) :
    ∀ (fuel retstart : Nat) (acc : List α) (calls : Nat),
      ∃ out, searchLoop search fetch maxResults retmax fuel retstart acc calls = Except.ok out := by
  intro fuel
  induction fuel with
  | zero => exact fun retstart acc calls => ⟨(acc, calls), rfl⟩
  | succ f ih =>
    intro retstart acc calls
    by_cases hlt : retstart < maxResults
    · cases hs : search retstart with
      | reqError => exact ⟨(acc, calls), searchLoop_succ_reqError hlt hs⟩
      | badShape => exact absurd hs (h retstart)
      | ok pmids count =>
        rw [searchLoop_succ_ok hlt hs]
        by_cases hp : pmids.isEmpty
        · rw [if_pos hp]; exact ⟨(acc, calls), rfl⟩
        · rw [if_neg hp]
          by_cases hstop : count ≤ retstart + retmax ∨ maxResults ≤ (acc ++ fetch pmids).length
          · rw [if_pos hstop]; exact ⟨(acc ++ fetch pmids, calls + 1), rfl⟩
          · rw [if_neg hstop]; exact ih (retstart + retmax) (acc ++ fetch pmids) (calls + 1)
    · exact ⟨(acc, calls), searchLoop_succ_not_lt hlt⟩

lemma find?_eq_get_of_first {α : Type} (p : α → Bool) (l : List α) (i : Nat) (h : i < l.length)
    (hbefore : ∀ j (hj : j < i), p (l.get ⟨j, Nat.lt_trans hj h⟩) = false)
    (hp : p (l.get ⟨i, h⟩) = true) : l.find? p = some (l.get ⟨i, h⟩) := by
  induction l generalizing i with
  | nil => exact absurd h (Nat.not_lt_zero i)
  | cons a tl ih =>
    cases i with
    | zero => simpa using List.find?_cons_of_pos tl hp
    | succ i =>
      have ha : p a = false := hbefore 0 (Nat.succ_pos i)
      rw [List.find?_cons_of_neg tl (by simp [ha])]
      exact ih i (Nat.lt_of_succ_lt_succ h)
        (fun j hj => hbefore (j + 1) (Nat.succ_lt_succ hj)) hp

/-! ## Claim theorems: query building and scalar extractors -/

/-- C4: with configured categories `[A, B]` carrying terms `[a1, a2]` and
`[b1]`, `build_search_query(None)` produces exactly the two title/abstract
OR-groups joined by AND, followed by the fixed four-entry publication-type
disjunction; and a category whose term list is empty is skipped silently. -/
theorem build_search_query_two_categories :
    buildSearchQuery [⟨"A", ["a1", "a2"]⟩, ⟨"B", ["b1"]⟩] none =
      "(\"a1\"[Title/Abstract] OR \"a2\"[Title/Abstract]) AND (\"b1\"[Title/Abstract]) AND (\"Clinical Trial\"[Publication Type] OR \"Meta-Analysis\"[Publication Type] OR \"Systematic Review\"[Publication Type] OR \"Randomized Controlled Trial\"[Publication Type])"
    ∧ buildSearchQuery [⟨"A", ["a1", "a2"]⟩, ⟨"B", []⟩] none =
      "(\"a1\"[Title/Abstract] OR \"a2\"[Title/Abstract]) AND (\"Clinical Trial\"[Publication Type] OR \"Meta-Analysis\"[Publication Type] OR \"Systematic Review\"[Publication Type] OR \"Randomized Controlled Trial\"[Publication Type])" := by
  constructor <;> rfl

/-- C7: an alphabetic month name is mapped through the fixed 12-entry table
on its first three letters (case-sensitively); when year, month and day are
all present the result is `YYYY-MM-DD` (zero-padded), otherwise the result
is the year field (the available partial value); in particular
`Feb/3/2021 ↦ "2021-02-03"` and a year-only record yields `"2019"`. -/
theorem extract_publication_date_spec :
    (∀ y m d : String, isalphaStr m = true →
      extractPublicationDate (some ⟨y, m, d⟩) =
        if y ≠ "" ∧ d ≠ "" then
          y ++ "-" ++ zfill (alookupD monthTable (strTake m 3) "01") 2 ++ "-" ++ zfill d 2
        else y)
    ∧ (∀ y m d : String, ¬(y ≠ "" ∧ mapMonth m ≠ "" ∧ d ≠ "") →
        extractPublicationDate (some ⟨y, m, d⟩) = y)
    ∧ extractPublicationDate (some ⟨"2021", "Feb", "3"⟩) = "2021-02-03"
    ∧ extractPublicationDate (some ⟨"2019", "", ""⟩) = "2019" := by
  refine ⟨?_, ?_, by decide, by decide⟩
  · intro y m d hm
    have hmonth : mapMonth m ≠ "" := mapMonth_ne_empty m hm
    show (if y ≠ "" ∧ mapMonth m ≠ "" ∧ d ≠ "" then
        y ++ "-" ++ zfill (mapMonth m) 2 ++ "-" ++ zfill d 2 else y) = _
    have hmap : mapMonth m = alookupD monthTable (strTake m 3) "01" := by
      unfold mapMonth; rw [if_pos hm]
    by_cases hyd : y ≠ "" ∧ d ≠ ""
    · rw [if_pos ⟨hyd.1, hmonth, hyd.2⟩, if_pos hyd, hmap]
    · rw [if_neg (fun hc => hyd ⟨hc.1, hc.2.2⟩), if_neg hyd]
  · intro y m d hc
    show (if y ≠ "" ∧ mapMonth m ≠ "" ∧ d ≠ "" then
        y ++ "-" ++ zfill (mapMonth m) 2 ++ "-" ++ zfill d 2 else y) = y
    rw [if_neg hc]

/-- Witness for C7: the theorem applied at `Month="Feb", Day="3",
Year="2021"`. -/
theorem extract_publication_date_witness :
    extractPublicationDate (some ⟨"2021", "Feb", "3"⟩) = "2021-02-03" := by
  have h := extract_publication_date_spec.1 "2021" "Feb" "3" (by decide)
  rw [h]
  decide

/-- C8: `study_type` is the short code of the first entry of the fixed
ordered table whose long name occurs as a case-sensitive substring of some
publication-type or MeSH-term string, `"Other"` when no entry matches;
`["Randomized Controlled Trial"]` resolves to `"RCT"` and empty inputs to
`"Other"`. -/
theorem determine_study_type_spec :
    (∀ (pubTypes meshTerms : List String) (i : Nat) (h : i < studyTypes.length),
        (∀ j (hj : j < i), stMatches pubTypes meshTerms (studyTypes.get ⟨j, Nat.lt_trans hj h⟩) = false) →
        stMatches pubTypes meshTerms (studyTypes.get ⟨i, h⟩) = true →
        determineStudyType pubTypes meshTerms = (studyTypes.get ⟨i, h⟩).2)
    ∧ (∀ pubTypes meshTerms : List String,
        (∀ st ∈ studyTypes, stMatches pubTypes meshTerms st = false) →
        determineStudyType pubTypes meshTerms = "Other")
    ∧ determineStudyType ["Randomized Controlled Trial"] [] = "RCT"
    ∧ determineStudyType [] [] = "Other" := by
  refine ⟨?_, ?_, by decide, by decide⟩
  · intro pubTypes meshTerms i h hbefore hp
    unfold determineStudyType
    rw [find?_eq_get_of_first (stMatches pubTypes meshTerms) studyTypes i h hbefore hp]
  · intro pubTypes meshTerms hnone
    unfold determineStudyType
    rw [List.find?_eq_none.mpr (fun st hst => by simp [hnone st hst])]

/-- Witness for C8: with both `"Randomized Controlled Trial"` and
`"Clinical Trial"` present, table order resolves the tie to `"RCT"`. -/
theorem determine_study_type_witness :
    determineStudyType ["Randomized Controlled Trial", "Clinical Trial"] [] = "RCT" := by
  have h := determine_study_type_spec.1 ["Randomized Controlled Trial", "Clinical Trial"] []
    0 (by decide) (fun j hj => absurd hj (Nat.not_lt_zero j)) (by decide)
  simpa using h

/-- C1: against a mock search API returning 100 ids at offset 0, 100 more
at offset 100 and none elsewhere (reported total above the first batch),
`search_articles(query, max_results=150)` returns exactly the first 150
collected ids (the over-collected second batch truncated after loop
termination) with exactly 2 fetch calls, and the per-request batch size is
`min(100, 150) = 100`. -/
theorem harvest_150_truncation :
    ∀ (b1 b2 : List String) (count : Nat),
      b1.length = 100 → b2.length = 100 → 101 ≤ count →
      searchArticles (mockTwoBatches b1 b2 count) (fun pmids => pmids) 150 =
          Except.ok ((b1 ++ b2).take 150, 2)
        ∧ ((b1 ++ b2).take 150).length = 150
        ∧ retmaxOf 150 = 100 := by
  intro b1 b2 count h1 h2 hc
  have hb1 : b1.isEmpty = false := by
    cases b1 with
    | nil => simp at h1
    | cons a t => rfl
  have hb2 : b2.isEmpty = false := by
    cases b2 with
    | nil => simp at h2
    | cons a t => rfl
  refine ⟨?_, ?_, rfl⟩
  · unfold searchArticles
    rw [show retmaxOf 150 = 100 from rfl]
    rw [searchLoop_succ_ok (by norm_num) mockTwoBatches_zero]
    rw [if_neg (by simp [hb1])]
    have hcond1 : ¬ (count ≤ 0 + 100 ∨ (150 : Nat) ≤ ([] ++ b1).length) := by
      rw [List.nil_append, h1]; omega
    rw [if_neg hcond1]
    norm_num [List.nil_append]
    rw [show (150 : Nat) = 149 + 1 from rfl]
    rw [searchLoop_succ_ok (by norm_num) mockTwoBatches_hundred]
    rw [if_neg (by simp [hb2])]
    have hcond2 : (count ≤ 100 + 100 ∨ (149 + 1 : Nat) ≤ (b1 ++ b2).length) := by
      right; rw [List.length_append, h1, h2]; omega
    rw [if_pos hcond2]
    simp [Except.map]
  · rw [List.length_take, List.length_append, h1, h2]
    omega

/-- Witness for C1: the theorem applied at two concrete 100-id batches and
reported total 200. -/
theorem harvest_150_truncation_witness :
    searchArticles
        (mockTwoBatches (List.replicate 100 "a") (List.replicate 100 "b") 200)
        (fun pmids => pmids) 150 =
      Except.ok ((List.replicate 100 "a" ++ List.replicate 100 "b").take 150, 2) :=
  (harvest_150_truncation (List.replicate 100 "a") (List.replicate 100 "b") 200
    (by simp) (by simp) (by norm_num)).1

/-- Counterexample to C3 as stated: a response body that decodes to JSON
without the expected `esearchresult`/`idlist` keys ("malformed response
payload") is not a `requests.RequestException`, so the resulting `KeyError`
escapes `search_articles` instead of aborting the loop with a partial
result: harvest does raise to its caller. -/
theorem harvest_badshape_counterexample :
    searchArticles (fun _ => EsearchResp.badShape) (fun pmids => pmids) 10 =
      Except.error () := rfl

/-- C3 (amended): a `requests.RequestException`-class transport failure
(network error, non-2xx status, undecodable-JSON body) on a search call
aborts the pagination loop and `search_articles` returns the partial
result accumulated so far, capped at `max_results`; only a decoded payload
lacking the expected keys raises out of `search_articles`.  First
conjunct: whenever no response is shape-malformed, harvest never raises
and its output is capped at `max_results`.  Second conjunct: a transport
failure on the second batch returns exactly the 100 ids of the first. -/
theorem harvest_transport_abort_amended :
    (∀ (α : Type) (search : Nat → EsearchResp) (fetch : List String → List α) (maxResults : Nat),
      (∀ rs, search rs ≠ EsearchResp.badShape) →
      ∃ res, searchArticles search fetch maxResults = Except.ok res ∧
        res.1.length ≤ maxResults)
    ∧ (∀ (b1 : List String) (count : Nat), b1.length = 100 → 101 ≤ count →
        searchArticles (mockThenError b1 count) (fun pmids => pmids) 150 =
          Except.ok (b1, 1)) := by
  constructor
  · intro α search fetch maxResults h
    obtain ⟨out, hout⟩ := searchLoop_no_badshape search fetch maxResults (retmaxOf maxResults) h
      (maxResults + 1) 0 [] 0
    refine ⟨(out.1.take maxResults, out.2), ?_, ?_⟩
    · unfold searchArticles
      rw [hout]
      rfl
    · rw [List.length_take]
      exact Nat.min_le_left _ _
  · intro b1 count h1 hc
    have hb1 : b1.isEmpty = false := by
      cases b1 with
      | nil => simp at h1
      | cons a t => rfl
    unfold searchArticles
    rw [show retmaxOf 150 = 100 from rfl]
    rw [searchLoop_succ_ok (by norm_num) mockThenError_zero]
    rw [if_neg (by simp [hb1])]
    have hcond1 : ¬ (count ≤ 0 + 100 ∨ (150 : Nat) ≤ ([] ++ b1).length) := by
      rw [List.nil_append, h1]; omega
    rw [if_neg hcond1]
    norm_num [List.nil_append]
    rw [show (150 : Nat) = 149 + 1 from rfl]
    rw [searchLoop_succ_reqError (by norm_num) mockThenError_hundred]
    have htake : b1.take (149 + 1) = b1 := List.take_of_length_le (by omega)
    simp [Except.map, htake]

/-- Witness for C3 (amended theorem applied at a concrete schedule). -/
theorem harvest_transport_abort_witness :
    searchArticles (mockThenError (List.replicate 100 "a") 200) (fun pmids => pmids) 150 =
      Except.ok (List.replicate 100 "a", 1) :=
  harvest_transport_abort_amended.2 (List.replicate 100 "a") 200 (by simp) (by norm_num)

/-- Counterexample to C6 as stated: with one technology whose single
variant `"cgm"` occurs twice in the title, the occurrence count within
title-plus-abstract is 2, but `_analyze_technology_mentions` reports 1:
the code counts the number of term variants present at least once, not
occurrences. -/
theorem technology_mentions_counterexample :
    analyzeTechnologyMentions [⟨"CGM", ["cgm"]⟩] "cgm cgm" "" = [("CGM", 1)]
    ∧ specTotalOcc ⟨"CGM", ["cgm"]⟩ (textOf "cgm cgm" "") = 2
    ∧ alookup (analyzeTechnologyMentions [⟨"CGM", ["cgm"]⟩] "cgm cgm" "") "CGM" ≠
        some (specTotalOcc ⟨"CGM", ["cgm"]⟩ (textOf "cgm cgm" "")) := by
  refine ⟨by decide, by decide, by decide⟩

/-- C6 (amended): for every configuration and record text, the
technology-mention mapping equals the filter-map that, per technology,
counts the term variants occurring (case-insensitively) at least once in
the concatenation of title and abstract, and keeps only positive counts —
each variant contributes at most 1 regardless of multiplicity. -/
theorem technology_mentions_amended (techs : List Tech) (title abstract : String) :
    analyzeTechnologyMentions techs title abstract =
      techs.filterMap (fun tt =>
        let count := tt.terms.countP
          (fun term => decide (0 < specOccCount (strLower term) (textOf title abstract)))
        if 0 < count then some (tt.name, count) else none) := by
  unfold analyzeTechnologyMentions
  apply List.filterMap_congr
  intro tt _
  have hc : tt.terms.countP (fun term => containsSub (strLower term) (textOf title abstract))
      = tt.terms.countP
          (fun term => decide (0 < specOccCount (strLower term) (textOf title abstract))) := by
    apply List.countP_congr
    intro term _
    constructor
    · intro hb
      simpa using (containsSub_iff_occ_pos (strLower term) (textOf title abstract)).mp hb
    · intro hb
      exact (containsSub_iff_occ_pos (strLower term) (textOf title abstract)).mpr (by simpa using hb)
  rw [hc]

/-- C2 evidence, against the program as it actually runs.  First
conjunct: the claimed scenario — a record without its `<PMID>` followed by
a well-formed record — returns `[]`: the failure happens before `pmid` is
assigned, the handler reads the unbound local, and the resulting
`UnboundLocalError` reaches the outer handler, aborting the whole batch.
Second conjunct: even a single well-formed record yields no article,
because the dictionary construction calls `self._extract_authors`, which
raises `AttributeError` for every record (`_extract_authors` is dedented
out of the class at line 229).  Third and fourth conjuncts: the same for
a longer batch and for every input, so no record of any batch is ever
extracted — "the remaining records are still processed" fails for every
batch containing a record, not only the claimed one. -/
theorem process_article_data_first_record_bug :
    processArticleData [recNoPmid, recGood] = []
    ∧ processArticleData [recGood] = []
    ∧ processArticleData [recGood, recNoPmid, recGood] = []
    ∧ ∀ records : List Record, processArticleData records = [] := by
  refine ⟨rfl, rfl, rfl, ?_⟩
  intro records
  exact processGo_nil_acc records none

/-- Counterexample to C5 as stated: `exCorpus` has dated articles spanning
the three distinct years 2019, 2020, 2021, so the claim's "two most recent
years" are 2020 and 2021 and keyword `"a"` (absent in 2021) should not be
emerging — yet the analyzer reports it, because the year table only tracks
years with keyword occurrences and so compares 2019 with 2020. -/
theorem emerging_topics_counterexample :
    2 ≤ (datedYearsOf exCorpus).length
    ∧ datedYearsOf exCorpus = ["2019", "2020", "2021"]
    ∧ kwOccCount exCorpus "2021" "a" = 0
    ∧ emergingTopicsOf exCorpus =
        [("a", { recent_count := 2, previous_count := 1,
                 growth_rate := (((2 : ℕ) : ℚ) - ((1 : ℕ) : ℚ)) / ((1 : ℕ) : ℚ) })] := by
  refine ⟨by decide, by decide, by decide, rfl⟩

/-- C5 (amended): emerging topics are computed from the years carrying at
least one keyword occurrence (a dated article with no keywords contributes
no year).  When at least two such years exist, `emerging_topics` contains
exactly the keywords occurring in both of the two most recent such years
with a strictly higher count in the more recent one, reporting
`recent_count`, `previous_count` and
`growth_rate = (recent - previous) / previous`; with fewer than two such
years no emerging topics are computed. -/
theorem emerging_topics_amended (articles : List Article) :
    (2 ≤ (sortedYearsOf articles).length →
      ∀ (t : String) (e : EmergingEntry),
        ((t, e) ∈ emergingTopicsOf articles ↔
          (0 < kwOccCount articles (recentYearOf articles) t ∧
           0 < kwOccCount articles (prevYearOf articles) t ∧
           kwOccCount articles (prevYearOf articles) t <
             kwOccCount articles (recentYearOf articles) t ∧
           e = { recent_count := kwOccCount articles (recentYearOf articles) t,
                 previous_count := kwOccCount articles (prevYearOf articles) t,
                 growth_rate :=
                   ((kwOccCount articles (recentYearOf articles) t : ℚ) -
                     (kwOccCount articles (prevYearOf articles) t : ℚ)) /
                   (kwOccCount articles (prevYearOf articles) t : ℚ) })))
    ∧ ((sortedYearsOf articles).length < 2 → emergingTopicsOf articles = []) := by
  constructor
  · intro h2 t e
    have hyr : recentYearOf articles ≠ "unknown" :=
      yt_keys_ne_unknown articles (recentYear_mem articles h2)
    have hyp : prevYearOf articles ≠ "unknown" :=
      yt_keys_ne_unknown articles (prevYear_mem articles h2)
    rw [mem_emergingTopics_iff articles h2 t e]
    constructor
    · rintro ⟨rc, pc, hrc, hpc, hlt, he⟩
      obtain ⟨hrpos, hrc2⟩ := (alookup_inner_iff_kwOcc articles hyr t rc).mp hrc
      obtain ⟨hppos, hpc2⟩ := (alookup_inner_iff_kwOcc articles hyp t pc).mp hpc
      subst hrc2
      subst hpc2
      exact ⟨hrpos, hppos, hlt, he⟩
    · rintro ⟨hrpos, hppos, hlt, he⟩
      refine ⟨kwOccCount articles (recentYearOf articles) t,
        kwOccCount articles (prevYearOf articles) t, ?_, ?_, hlt, he⟩
      · exact (alookup_inner_iff_kwOcc articles hyr t _).mpr ⟨hrpos, rfl⟩
      · exact (alookup_inner_iff_kwOcc articles hyp t _).mpr ⟨hppos, rfl⟩
  · intro hlt
    unfold emergingTopicsOf
    rw [if_neg (by omega)]

/-- Witness for C5 (amended theorem applied at the 5-then-8 telemedicine
corpus): counts 5 (earlier year) and 8 (later year) give
`recent_count = 8`, `previous_count = 5`, `growth_rate = 0.6`. -/
theorem emerging_topics_amended_witness :
    ("telemedicine",
      { recent_count := 8, previous_count := 5, growth_rate := (0.6 : ℚ) })
      ∈ emergingTopicsOf teleCorpus := by
  have h8 : kwOccCount teleCorpus (recentYearOf teleCorpus) "telemedicine" = 8 := by decide
  have h5 : kwOccCount teleCorpus (prevYearOf teleCorpus) "telemedicine" = 5 := by decide
  refine ((emerging_topics_amended teleCorpus).1 (by decide) "telemedicine" _).mpr ?_
  refine ⟨by decide, by decide, by decide, ?_⟩
  rw [h8, h5]
  congr 1
  norm_num

/-- C9: every reported emerging-topic entry has `previous_count ≥ 1`
(membership in both compared years is required, and stored counts are
strictly positive), so the `prev.get(topic, 1)` denominator substitution
never fires and `growth_rate` is exactly
`(recent_count - previous_count) / previous_count`. -/
theorem emerging_entry_invariant :
    ∀ (articles : List Article) (t : String) (e : EmergingEntry),
      (t, e) ∈ emergingTopicsOf articles →
      1 ≤ e.previous_count ∧
      e.growth_rate =
        ((e.recent_count : ℚ) - (e.previous_count : ℚ)) / (e.previous_count : ℚ) := by
  intro articles t e hmem
  by_cases h2 : 2 ≤ (sortedYearsOf articles).length
  · obtain ⟨rc, pc, hrc, hpc, hlt, he⟩ := (mem_emergingTopics_iff articles h2 t e).mp hmem
    have hpos : 1 ≤ pc := (inner_good articles (prevYearOf articles)).2 _ (alookup_mem hpc)
    subst he
    exact ⟨hpos, rfl⟩
  · exfalso
    unfold emergingTopicsOf at hmem
    rw [if_neg h2] at hmem
    simp at hmem

/-- Witness for C9: the theorem applied at the telemedicine corpus and its
concrete emerging entry. -/
theorem emerging_entry_invariant_witness :
    1 ≤ teleEntry.previous_count
    ∧ teleEntry.growth_rate =
        ((teleEntry.recent_count : ℚ) - (teleEntry.previous_count : ℚ)) /
          (teleEntry.previous_count : ℚ) :=
  emerging_entry_invariant teleCorpus "telemedicine" teleEntry (by
    rw [show emergingTopicsOf teleCorpus = [("telemedicine", teleEntry)] from rfl]
    exact List.mem_singleton.mpr rfl)

/-- C10: in every `top_authors` entry and every `top_institutions` entry,
`publication_count` equals the length of the entry's `articles` id list:
each occurrence increments the count and appends exactly one article id,
and the final sort only reorders entries. -/
theorem analyzer_counts_spec :
    ∀ (articles : List Article),
      (∀ o ∈ analyzeAuthors articles, o.publication_count = o.articles.length)
      ∧ (∀ o ∈ analyzeInstitutions articles, o.publication_count = o.articles.length) := by
  intro articles
  constructor
  · intro o ho
    unfold analyzeAuthors at ho
    rw [mem_isort] at ho
    obtain ⟨p, hp, rfl⟩ := List.mem_map.mp ho
    exact authorStats_count_eq articles p hp
  · intro o ho
    unfold analyzeInstitutions at ho
    rw [mem_isort] at ho
    obtain ⟨p, hp, rfl⟩ := List.mem_map.mp ho
    exact instStats_count_eq articles p hp

/-- Witness for C10: the theorem applied at a one-article corpus. -/
theorem analyzer_counts_spec_witness :
    ({ name := "Doe, Jane", publication_count := 1, affiliations := ["U"],
       recent_year := "2021", articles := ["1"] } : AuthorOut).publication_count =
      ({ name := "Doe, Jane", publication_count := 1, affiliations := ["U"],
         recent_year := "2021", articles := ["1"] } : AuthorOut).articles.length
    ∧ ({ name := "X University", publication_count := 1, countries := [],
         recent_year := "2021", articles := ["1"] } : InstOut).publication_count =
        ({ name := "X University", publication_count := 1, countries := [],
           recent_year := "2021", articles := ["1"] } : InstOut).articles.length :=
  ⟨(analyzer_counts_spec [artA]).1 _ (by decide),
   (analyzer_counts_spec [artA]).2 _ (by decide)⟩

end PubMed
